import Mathlib

/-!
Shallow embedding of the Oligo Grace Pendant firmware
(src/OligoGracePendant.ino) used to check the specification claims.

Machine integers are modeled as Nat or Int.  Unsigned wraparound is made
explicit with `% 65536` (a 16-bit `unsigned int` on the ATmega328P) or
`% 4294967296` (a 32-bit `unsigned long`) at the points where the C code
performs unsigned arithmetic whose wraparound can matter; additions to
timestamp variables are kept as plain Nat because every read of such a
variable goes through one of the reducing elapsed-time helpers below.
-/

namespace OligoGrace

/-! ## Constants (the define block, lines 152-197 of the source) -/

def EEPROM_MAGIC : Nat := 0xAFFE
def BACKUP_DELAY : Nat := 10000
def LOOP_PERIOD : Nat := 10
def DURATION_MIN : Nat := 100
def DURATION_POWER_MAX : Nat := 600
def DURATION_DIM_MIN : Nat := 800
def DURATION_TOGGLE_STEP : Nat := 5000
def DURATION_LOCK : Nat := 15000
def DURATION_DIM_INC : Nat := 40
def DURATION_DIM_STEP : Nat := DURATION_DIM_MIN
def BRIGHTNESS_MIN : Nat := 4
def BRIGHTNESS_STEP_1 : Nat := 16
def BRIGHTNESS_STEP_2 : Nat := 32
def BRIGHTNESS_MAX : Nat := 100
def BRIGHTNESS_INC : Nat := 1
def BLINK_PERIOD_FAST : Nat := 100
def BLINK_PERIOD_SLOW : Nat := 500
def NTC_TEMP_MAX : Int := 85
def NTC_TEMP_HYSTERESIS : Int := 5
def F_CPU : Nat := 8000000
def PWM_FREQUENCY : Nat := 32000

/-- Timer 1 TOP value, set in setup (line 525): `ICR1 = F_CPU/PWM_FREQUENCY`. -/
def ICR1 : Nat := F_CPU / PWM_FREQUENCY

/-- ADC full scale, set in setup (line 542): `adcResolution = 1023`. -/
def adcResolution : Nat := 1023

/-- Integer value of `round(NTC_TEMP_INVALID)` = round(999.0f), the sentinel
returned by `getNtcTemperature` on an implausible sample (lines 192, 386, 409). -/
def NTC_TEMP_INVALID_ROUNDED : Int := 999

/-! ## Enumerations (lines 199-218) -/

/-- Operating modes (enum OperationMode, lines 200-208). -/
inductive OperationMode where
  | MODE_STANDBY
  | MODE_DEFAULT
  | MODE_BLINK_SETTINGS
  | MODE_BLINK_LIMIT
  | MODE_BLINK_WARNING
  | MODE_BLINK_END
deriving DecidableEq, Repr

/-- Brightness level in big step mode (enum BrightnessLevel, lines 211-218). -/
inductive BrightnessLevel where
  | LEVEL_0
  | LEVEL_1
  | LEVEL_2
  | LEVEL_3
  | LEVEL_4
deriving DecidableEq, Repr

/-- Numeric value carried by each BrightnessLevel enumerator (lines 213-217). -/
def levelValue : BrightnessLevel → Nat
  | .LEVEL_0 => 0
  | .LEVEL_1 => BRIGHTNESS_MIN
  | .LEVEL_2 => BRIGHTNESS_STEP_1
  | .LEVEL_3 => BRIGHTNESS_STEP_2
  | .LEVEL_4 => BRIGHTNESS_MAX

/-- Next higher brightness level (operator++, lines 294-307). -/
def levelUp : BrightnessLevel → BrightnessLevel
  | .LEVEL_0 => .LEVEL_1
  | .LEVEL_1 => .LEVEL_2
  | .LEVEL_2 => .LEVEL_3
  | _ => .LEVEL_4

/-- Next lower brightness level (operator--, lines 312-325). -/
def levelDown : BrightnessLevel → BrightnessLevel
  | .LEVEL_4 => .LEVEL_3
  | .LEVEL_3 => .LEVEL_2
  | .LEVEL_2 => .LEVEL_1
  | _ => .LEVEL_0

/-- Brightness level of a brightness value: the if chain of
`getBrightnessLevel` (lines 330-342), comparing against the enumerator
values LEVEL_0 = 0, LEVEL_1 = 4, LEVEL_2 = 16, LEVEL_3 = 32. -/
def getBrightnessLevel (brightness : Nat) : BrightnessLevel :=
  if brightness ≤ levelValue .LEVEL_0 then .LEVEL_0
  else if brightness ≤ levelValue .LEVEL_1 then .LEVEL_1
  else if brightness ≤ levelValue .LEVEL_2 then .LEVEL_2
  else if brightness ≤ levelValue .LEVEL_3 then .LEVEL_3
  else .LEVEL_4

/-! ## Persistent settings (struct Settings, lines 221-228) -/

/-- Persistent settings record.  `magic` and `brightness` are 16-bit
`unsigned int`, the two flags are single-byte bools, `crc` is `uint16_t`. -/
structure Settings where
  magic : Nat
  brightness : Nat
  dimSteps : Bool
  proximitySensorLocked : Bool
  crc : Nat
deriving DecidableEq, Repr

/-- Field initializers of struct Settings (lines 223-227); these are also the
values the settings keep when the EEPROM record is rejected at boot. -/
def defaultSettings : Settings :=
  { magic := EEPROM_MAGIC
    brightness := BRIGHTNESS_STEP_2
    dimSteps := true
    proximitySensorLocked := false
    crc := 0 }

/-- Byte stored for a C++ bool inside the packed struct. -/
def boolByte (b : Bool) : Nat := if b then 1 else 0

/-- Little-endian byte image of the Settings struct as it lies in RAM and in
EEPROM on the AVR (2 + 2 + 1 + 1 + 2 bytes, no padding on AVR). -/
def settingsBytes (s : Settings) : List Nat :=
  [s.magic % 256, s.magic / 256 % 256,
   s.brightness % 256, s.brightness / 256 % 256,
   boolByte s.dimSteps, boolByte s.proximitySensorLocked,
   s.crc % 256, s.crc / 256 % 256]

/-! ## CRC-16 (calculateCRC16, lines 347-358, and avr-libc _crc16_update) -/

/-- One shift iteration of avr-libc `_crc16_update`:
`crc = (crc >> 1) ^ 0xA001` when the low bit is set, else `crc >> 1`. -/
def crc16Step (crc : Nat) : Nat :=
  if crc % 2 = 1 then (crc >>> 1) ^^^ 0xA001 else crc >>> 1

/-- n iterations of `crc16Step` (the `for (i = 0; i < 8; i++)` loop). -/
def crc16Rounds : Nat → Nat → Nat
  | 0, crc => crc
  | n + 1, crc => crc16Rounds n (crc16Step crc)

/-- avr-libc `_crc16_update`: xor the byte into the crc, then 8 shift rounds. -/
def crc16Update (crc byte : Nat) : Nat :=
  crc16Rounds 8 (crc ^^^ byte)

/-- `calculateCRC16` (lines 347-358): fold `_crc16_update` over the raw bytes
of the struct, starting from 0. -/
def calculateCRC16 (bytes : List Nat) : Nat :=
  bytes.foldl crc16Update 0

/-! ## EEPROM store and load (loop lines 834-843, setup lines 544-569) -/

/-- The EEPROM write of the settings (lines 838-840): zero the crc field,
compute the CRC over the whole struct, store it in the crc field and write
the struct.  The result is the byte image written to EEPROM. -/
def storeSettings (s : Settings) : List Nat :=
  let c := calculateCRC16 (settingsBytes { s with crc := 0 })
  settingsBytes { s with crc := c }

/-- Decode a little-endian 16-bit value from two raw bytes. -/
def decodeU16 (lo hi : Nat) : Nat := lo + 256 * hi

/-- Acceptance test of setup (lines 547-553): the restored magic must equal
EEPROM_MAGIC and the CRC recomputed over the raw struct bytes with the crc
field zeroed must equal the stored crc field.  `EEPROM.get` always reads
exactly sizeof(Settings) = 8 bytes, so the byte image is an 8-element list;
any other shape is unreachable and rejected. -/
def loadAccepts (bytes : List Nat) : Bool :=
  match bytes with
  | [b0, b1, b2, b3, b4, b5, b6, b7] =>
      decodeU16 b0 b1 == EEPROM_MAGIC &&
      decodeU16 b6 b7 == calculateCRC16 [b0, b1, b2, b3, b4, b5, 0, 0]
  | _ => false

/-- Brightness clamp applied right after a successful restore
(lines 559-567). -/
def clampBrightness (b : Nat) : Nat :=
  if b < BRIGHTNESS_MIN then BRIGHTNESS_MIN
  else if b > BRIGHTNESS_MAX then BRIGHTNESS_MAX
  else b

/-- Settings restore at boot (setup lines 544-569): read the raw bytes, check
magic and CRC; on success adopt the decoded record (its crc field was zeroed
for the recomputation) with the brightness clamped; otherwise keep the
field initializers of struct Settings. -/
def loadSettings (bytes : List Nat) : Settings :=
  match bytes with
  | [b0, b1, b2, b3, b4, b5, b6, b7] =>
      if loadAccepts [b0, b1, b2, b3, b4, b5, b6, b7] then
        { magic := decodeU16 b0 b1
          brightness := clampBrightness (decodeU16 b2 b3)
          dimSteps := b4 != 0
          proximitySensorLocked := b5 != 0
          crc := 0 }
      else defaultSettings
  | _ => defaultSettings

/-- Flip bit `i` (bit `i % 8` of byte `i / 8`) of a stored byte image; used to
model a single-bit EEPROM corruption. -/
def flipBit (bytes : List Nat) (i : Nat) : List Nat :=
  bytes.set (i / 8) ((bytes.getD (i / 8) 0) ^^^ (1 <<< (i % 8)))

/-- Error pattern of a single-bit corruption: the byte image that is zero
except for bit `j` of byte `p`. -/
def singleBitError (p j : Nat) : List Nat :=
  [if p = 0 then 1 <<< j else 0, if p = 1 then 1 <<< j else 0,
   if p = 2 then 1 <<< j else 0, if p = 3 then 1 <<< j else 0,
   if p = 4 then 1 <<< j else 0, if p = 5 then 1 <<< j else 0,
   if p = 6 then 1 <<< j else 0, if p = 7 then 1 <<< j else 0]

/-! ## Elapsed-time computations

`millis()` returns a 32-bit `unsigned long`.  The ISR truncates it to a
16-bit `unsigned int` (line 423), and both the ISR (line 439) and the main
loop (line 607) store the difference `now - approach` in a 16-bit
`unsigned int`; the settings backup check (line 835) subtracts two 32-bit
values.  The helpers below perform those subtractions with the same
wraparound behaviour. -/

/-- 16-bit truncated difference `(unsigned int)(now - approach)` where the
subtraction itself is carried out on 32-bit unsigned values. -/
def elapsedU16 (now approach : Nat) : Nat :=
  ((now % 4294967296) + 4294967296 - approach % 4294967296) % 4294967296 % 65536

/-- 32-bit difference `now - t` on `unsigned long` values. -/
def elapsedU32 (now t : Nat) : Nat :=
  ((now % 4294967296) + 4294967296 - t % 4294967296) % 4294967296

/-! ## Firmware state

The mutable globals shared by the ISRs and the main loop
(lines 230-247), with the persistent settings embedded. -/

structure FirmwareState where
  near : Bool
  initalApproach : Bool
  outputEnabled : Bool
  proximityAtStartup : Bool
  fadeOCR : Int
  approach : Nat
  operationMode : OperationMode
  blinkToggleCount : Int
  blinkPeriod : Nat
  blinkToggled : Nat
  dimUp : Bool
  settings : Settings
  settingsModified : Nat
deriving DecidableEq, Repr

/-- Initial value of the `overTemperature` global (line 243). -/
def overTemperatureInit : Bool := true

/-- Initial value of the `settingsModified` global (line 246); setup never
writes it, so this is also its value right after boot. -/
def bootSettingsModified : Nat := 0

/-- `setOperationMode` (lines 253-289). -/
def setOperationMode (mode : OperationMode) (st : FirmwareState) : FirmwareState :=
  let st1 := { st with operationMode := mode }
  match mode with
  | .MODE_STANDBY => { st1 with blinkToggleCount := 0, fadeOCR := 0 }
  | .MODE_DEFAULT => { st1 with blinkToggleCount := 0 }
  | .MODE_BLINK_LIMIT =>
      { st1 with blinkToggleCount := 4, blinkPeriod := BLINK_PERIOD_FAST, blinkToggled := 0 }
  | .MODE_BLINK_SETTINGS =>
      { st1 with blinkToggleCount := 6, blinkPeriod := BLINK_PERIOD_SLOW, blinkToggled := 0 }
  | .MODE_BLINK_WARNING =>
      { st1 with blinkToggleCount := 10, blinkPeriod := BLINK_PERIOD_FAST, blinkToggled := 0 }
  | .MODE_BLINK_END => { st1 with blinkToggleCount := -1 }

/-- `brightnessToOCR` (lines 364-367):
`brightness>=0? brightness<=100? brightness*ICR1/100 : 100 : 0`.
The product is computed on 16-bit unsigned values (at most 100 * 250, so the
explicit `% 65536` never truncates for in-range inputs). -/
def brightnessToOCR (brightness : Int) : Nat :=
  if 0 ≤ brightness then
    if brightness ≤ 100 then brightness.toNat * ICR1 % 65536 / 100 else 100
  else 0

/-- `getNtcTemperature` (lines 374-410).  `sum` is the sum of the three ADC
samples.  The floating-point Steinhart-Hart branch (lines 389-393, taken only
when the sample sum is plausible) is abstracted as the parameter `steinhart`,
standing for `round(temperature)` of that branch; none of the checked claims
depend on its value.  On an implausible sample the function returns
`round(NTC_TEMP_INVALID)` = 999. -/
def getNtcTemperature (steinhart : Nat → Int) (sum : Nat) : Int :=
  if sum > 3 * adcResolution / 3 then steinhart sum else NTC_TEMP_INVALID_ROUNDED

/-- Proximity ISR (lines 417-458).  `pinNear` is the value read from the
proximity pin, `now` the value of `millis()`; the ISR truncates `millis()` to
a 16-bit `unsigned int` (line 423) before storing or subtracting it. -/
def proximityISR (st0 : FirmwareState) (pinNear : Bool) (now : Nat) : FirmwareState :=
  let st := { st0 with near := pinNear }
  if st.settings.proximitySensorLocked = false then
    let nowU := now % 65536
    if pinNear then
      -- proximity start (lines 426-434)
      let st1 := { st with approach := nowU, initalApproach := true,
                           proximityAtStartup := false }
      if st1.outputEnabled = true ∧ st1.operationMode = .MODE_BLINK_END then
        setOperationMode .MODE_DEFAULT st1
      else st1
    else
      -- proximity end (lines 438-455)
      let proximityDuration := elapsedU16 nowU st.approach
      if st.initalApproach = true ∧ DURATION_MIN ≤ proximityDuration ∧
          proximityDuration ≤ DURATION_POWER_MAX then
        let st1 := { st with outputEnabled := !st.outputEnabled }
        if st1.outputEnabled = true then
          let st2 := setOperationMode .MODE_DEFAULT st1
          { st2 with fadeOCR := Int.ofNat (brightnessToOCR (st2.settings.brightness : Int)) }
        else
          setOperationMode .MODE_STANDBY st1
      else st
  else st

/-- The brightness value produced by one dim step (the inner branches of
loop lines 656-708), as a function of direction, dim mode and the current
brightness.  The `% 65536` mirrors the 16-bit unsigned addition; the
subtraction in the dim-down branch is guarded by `BRIGHTNESS_MIN < b` and so
cannot wrap. -/
def dimStepBrightness (dimUp dimSteps : Bool) (b : Nat) : Nat :=
  if dimUp then
    if b < BRIGHTNESS_MAX then
      if dimSteps then levelValue (levelUp (getBrightnessLevel b))
      else min ((b + BRIGHTNESS_INC) % 65536) BRIGHTNESS_MAX
    else BRIGHTNESS_MAX
  else
    if b > BRIGHTNESS_MIN then
      if dimSteps then levelValue (levelDown (getBrightnessLevel b))
      else max (b - BRIGHTNESS_INC) BRIGHTNESS_MIN
    else BRIGHTNESS_MIN

/-- The brightness-change block of the main loop (lines 650-715), executed
when `operationMode == MODE_DEFAULT`: apply one dim step, stamp
`settingsModified` when a step was taken, signal MODE_BLINK_LIMIT when the
new value reaches a limit, advance `approach` by the dim delay and clear
`initalApproach`. -/
def applyDimStep (st : FirmwareState) (now : Nat) : FirmwareState :=
  let dimDelay := if st.settings.dimSteps then DURATION_DIM_STEP else DURATION_DIM_INC
  let st1 :=
    if st.dimUp then
      if st.settings.brightness < BRIGHTNESS_MAX then
        let b2 := if st.settings.dimSteps
                  then levelValue (levelUp (getBrightnessLevel st.settings.brightness))
                  else min ((st.settings.brightness + BRIGHTNESS_INC) % 65536) BRIGHTNESS_MAX
        let st2 := { st with settings := { st.settings with brightness := b2 },
                             settingsModified := now }
        if BRIGHTNESS_MAX ≤ b2 then setOperationMode .MODE_BLINK_LIMIT st2 else st2
      else { st with settings := { st.settings with brightness := BRIGHTNESS_MAX } }
    else
      if st.settings.brightness > BRIGHTNESS_MIN then
        let b2 := if st.settings.dimSteps
                  then levelValue (levelDown (getBrightnessLevel st.settings.brightness))
                  else max (st.settings.brightness - BRIGHTNESS_INC) BRIGHTNESS_MIN
        let st2 := { st with settings := { st.settings with brightness := b2 },
                             settingsModified := now }
        if b2 ≤ BRIGHTNESS_MIN then setOperationMode .MODE_BLINK_LIMIT st2 else st2
      else { st with settings := { st.settings with brightness := BRIGHTNESS_MIN } }
  { st1 with approach := st1.approach + dimDelay, initalApproach := false }

/-- The three-way branch taken on a qualifying hold (lines 615-647): a
startup hold of at least DURATION_LOCK toggles the proximity lock, the first
qualifying tick of an approach flips the dim direction, and a continued hold
at a limit after blinking of at least DURATION_TOGGLE_STEP toggles the dim
step mode. -/
def dimHoldBranch (st : FirmwareState) (now proximityDuration : Nat) : FirmwareState :=
  if st.proximityAtStartup then
    if DURATION_LOCK ≤ proximityDuration then
      setOperationMode .MODE_BLINK_SETTINGS
        { st with settings := { st.settings with
                    proximitySensorLocked := !st.settings.proximitySensorLocked },
                  settingsModified := now,
                  proximityAtStartup := false }
    else st
  else if st.initalApproach then
    { st with dimUp := !st.dimUp, initalApproach := false }
  else
    if st.operationMode = .MODE_BLINK_END ∧ st.blinkPeriod = BLINK_PERIOD_FAST ∧
        ((st.dimUp = false ∧ st.settings.brightness = BRIGHTNESS_MIN) ∨
         (st.dimUp = true ∧ st.settings.brightness = BRIGHTNESS_MAX)) then
      if DURATION_TOGGLE_STEP ≤ proximityDuration then
        setOperationMode .MODE_BLINK_SETTINGS
          { st with settings := { st.settings with dimSteps := !st.settings.dimSteps },
                    settingsModified := now }
      else st
    else st

/-- The proximity dimming section of the main loop (lines 611-716): while the
output is enabled and the sensor is near and a hold has reached
DURATION_DIM_MIN, run the hold branch; afterwards, while the mode is
MODE_DEFAULT, one dim step is applied. -/
def proximityDimTick (st : FirmwareState) (now : Nat) : FirmwareState :=
  if st.outputEnabled = true ∧ st.near = true then
    let proximityDuration := elapsedU16 now st.approach
    if DURATION_DIM_MIN ≤ proximityDuration then
      let st1 := dimHoldBranch st now proximityDuration
      if st1.operationMode = .MODE_DEFAULT then applyDimStep st1 now else st1
    else st
  else st

/-- The board-temperature hysteresis of the main loop (lines 765-773).
First component: the new value of the `overTemperature` flag; second
component: whether MODE_BLINK_WARNING was signalled on this tick. -/
def thermalCheck (overTemperature : Bool) (ntcTemperature : Int) : Bool × Bool :=
  if overTemperature = false ∧ NTC_TEMP_MAX ≤ ntcTemperature then (true, true)
  else if overTemperature = true ∧ ntcTemperature ≤ NTC_TEMP_MAX - NTC_TEMP_HYSTERESIS then
    (false, false)
  else (overTemperature, false)

/-- The brightness applied to the output while the output is enabled
(lines 722-788, reduced to its data flow): while blinking
(`blinkToggleCount > 0`) the blink brightness is shown; otherwise the
minimum brightness when over temperature, else the stored brightness. -/
def appliedBrightness (overTemperature : Bool) (blinkToggleCount : Int)
    (blinkBrightness storedBrightness : Nat) : Nat :=
  if blinkToggleCount ≤ 0 then
    if overTemperature then BRIGHTNESS_MIN else storedBrightness
  else blinkBrightness

/-- The settings backup check of the main loop (lines 834-843).  First
component: whether the settings are written to EEPROM on this tick; second
component: the new value of `settingsModified`. -/
def saveCheck (settingsModified now : Nat) : Bool × Nat :=
  if settingsModified ≠ 0 ∧ BACKUP_DELAY ≤ elapsedU32 now settingsModified then
    (true, 0)
  else (false, settingsModified)

/-- A concrete firmware state used by the witnesses. -/
def sampleState : FirmwareState :=
  { near := true
    initalApproach := true
    outputEnabled := true
    proximityAtStartup := false
    fadeOCR := -1
    approach := 1000
    operationMode := .MODE_DEFAULT
    blinkToggleCount := 0
    blinkPeriod := 0
    blinkToggled := 0
    dimUp := false
    settings := defaultSettings
    settingsModified := 0 }

/-! ## Helper lemmas -/

theorem elapsedU16_eq (now approach : Nat) (h1 : approach ≤ now)
    (h2 : now - approach < 65536) : elapsedU16 now approach = now - approach := by
  unfold elapsedU16
  omega

theorem elapsedU16_mod_left (now approach : Nat) :
    elapsedU16 (now % 65536) approach = elapsedU16 now approach := by
  unfold elapsedU16
  omega

theorem elapsedU32_eq (now t : Nat) (h1 : t ≤ now) (h2 : now - t < 4294967296) :
    elapsedU32 now t = now - t := by
  unfold elapsedU32
  omega

theorem setOperationMode_settings (m : OperationMode) (st : FirmwareState) :
    (setOperationMode m st).settings = st.settings := by
  cases m <;> rfl

theorem setOperationMode_dimUp (m : OperationMode) (st : FirmwareState) :
    (setOperationMode m st).dimUp = st.dimUp := by
  cases m <;> rfl

theorem setOperationMode_initalApproach (m : OperationMode) (st : FirmwareState) :
    (setOperationMode m st).initalApproach = st.initalApproach := by
  cases m <;> rfl

theorem setOperationMode_operationMode (m : OperationMode) (st : FirmwareState) :
    (setOperationMode m st).operationMode = m := by
  cases m <;> rfl

theorem clampBrightness_bounds (b : Nat) :
    BRIGHTNESS_MIN ≤ clampBrightness b ∧ clampBrightness b ≤ BRIGHTNESS_MAX := by
  simp only [clampBrightness, BRIGHTNESS_MIN, BRIGHTNESS_MAX]
  split_ifs <;> omega

theorem dimStepBrightness_bounds :
    ∀ b : Nat, b < 101 → 4 ≤ b → ∀ up steps : Bool,
      4 ≤ dimStepBrightness up steps b ∧ dimStepBrightness up steps b ≤ 100 := by
  decide

theorem applyDimStep_brightness (st : FirmwareState) (now : Nat) :
    (applyDimStep st now).settings.brightness =
      dimStepBrightness st.dimUp st.settings.dimSteps st.settings.brightness := by
  unfold applyDimStep dimStepBrightness
  split_ifs <;> simp_all [setOperationMode_settings] <;>
    split_ifs <;> simp_all [setOperationMode_settings]

theorem applyDimStep_dimUp (st : FirmwareState) (now : Nat) :
    (applyDimStep st now).dimUp = st.dimUp := by
  unfold applyDimStep
  split_ifs <;> simp_all [setOperationMode_dimUp] <;>
    split_ifs <;> simp_all [setOperationMode_dimUp]

theorem applyDimStep_initalApproach (st : FirmwareState) (now : Nat) :
    (applyDimStep st now).initalApproach = false := by
  unfold applyDimStep
  split_ifs <;> simp_all [setOperationMode_initalApproach] <;>
    split_ifs <;> simp_all [setOperationMode_initalApproach]

/-! ## Claims -/

/-- Claim C6: the over-temperature flag becomes true only on a reading of at
least 85, becomes false only on a reading of at most 80, is unchanged for
readings strictly between 80 and 85, and while it is set and no blink is
active the applied output brightness is the minimum 4 instead of the stored
brightness. -/
theorem c6_overtemperature_hysteresis :
    (∀ ot : Bool, ∀ t : Int, (thermalCheck ot t).1 = true → ot = false → 85 ≤ t) ∧
    (∀ ot : Bool, ∀ t : Int, (thermalCheck ot t).1 = false → ot = true → t ≤ 80) ∧
    (∀ ot : Bool, ∀ t : Int, 80 < t → t < 85 → (thermalCheck ot t).1 = ot) ∧
    (∀ c : Int, ∀ bb sb : Nat, c ≤ 0 →
        appliedBrightness true c bb sb = BRIGHTNESS_MIN) := by
  refine ⟨?_, ?_, ?_, ?_⟩
  · intro ot t h hot
    simp only [thermalCheck, NTC_TEMP_MAX, NTC_TEMP_HYSTERESIS] at h
    split_ifs at h with h1 h2 <;> simp_all <;> omega
  · intro ot t h hot
    simp only [thermalCheck, NTC_TEMP_MAX, NTC_TEMP_HYSTERESIS] at h
    split_ifs at h with h1 h2 <;> simp_all <;> omega
  · intro ot t h1 h2
    simp only [thermalCheck, NTC_TEMP_MAX, NTC_TEMP_HYSTERESIS]
    split_ifs with g1 g2 <;> simp_all <;> omega
  · intro c bb sb hc
    simp only [appliedBrightness, if_pos hc, if_pos rfl]
    simp

theorem c6_witness : (thermalCheck true 82).1 = true :=
  c6_overtemperature_hysteresis.2.2.1 true 82 (by decide) (by decide)

/-- Claim C7: whenever the sum of the three ADC samples is at or below one
third of the full scale per sample, getNtcTemperature returns the sentinel
999, the sentinel is at least the overheat threshold 85, feeding it to the
hysteresis check from a non-over-temperature state sets the flag and fires
the warning blink, MODE_BLINK_WARNING really enters the warning mode, and
the over-temperature path forces the minimum brightness 4. -/
theorem c7_invalid_sensor_fail_safe (steinhart : Nat → Int) (sum : Nat)
    (hsum : sum ≤ 3 * adcResolution / 3) :
    getNtcTemperature steinhart sum = NTC_TEMP_INVALID_ROUNDED ∧
    NTC_TEMP_MAX ≤ NTC_TEMP_INVALID_ROUNDED ∧
    thermalCheck false (getNtcTemperature steinhart sum) = (true, true) ∧
    (∀ st : FirmwareState,
        (setOperationMode .MODE_BLINK_WARNING st).operationMode = .MODE_BLINK_WARNING ∧
        (setOperationMode .MODE_BLINK_WARNING st).blinkToggleCount = 10) ∧
    (∀ c : Int, ∀ bb sb : Nat, c ≤ 0 →
        appliedBrightness true c bb sb = BRIGHTNESS_MIN) := by
  have hret : getNtcTemperature steinhart sum = NTC_TEMP_INVALID_ROUNDED := by
    simp only [getNtcTemperature, adcResolution] at *
    have : ¬ sum > 3 * 1023 / 3 := by omega
    simp [this]
  refine ⟨hret, by decide, ?_, ?_, ?_⟩
  · rw [hret]
    decide
  · intro st
    exact ⟨setOperationMode_operationMode _ st, rfl⟩
  · intro c bb sb hc
    simp only [appliedBrightness, if_pos hc, if_pos rfl]
    simp

theorem c7_witness : getNtcTemperature (fun _ => 30) 600 = 999 :=
  (c7_invalid_sensor_fail_safe (fun _ => 30) 600 (by decide)).1

/-- Claim C10: the over-temperature flag starts true at power-up; while it is
true it stays true for any reading above 80 and never fires the warning
blink (which needs a false-to-true transition); it is cleared exactly by a
reading of at most 80; and while it is true with no blink active the applied
brightness is the minimum 4. -/
theorem c10_boot_overtemperature :
    overTemperatureInit = true ∧
    (∀ t : Int, 80 < t → thermalCheck true t = (true, false)) ∧
    (∀ t : Int, (thermalCheck true t).2 = false) ∧
    (∀ t : Int, t ≤ 80 → (thermalCheck true t).1 = false) ∧
    (∀ c : Int, ∀ bb sb : Nat, c ≤ 0 →
        appliedBrightness true c bb sb = BRIGHTNESS_MIN) := by
  refine ⟨rfl, ?_, ?_, ?_, ?_⟩
  · intro t ht
    simp only [thermalCheck, NTC_TEMP_MAX, NTC_TEMP_HYSTERESIS]
    split_ifs with h1 h2 <;> simp_all <;> omega
  · intro t
    simp only [thermalCheck, NTC_TEMP_MAX, NTC_TEMP_HYSTERESIS]
    split_ifs with h1 h2 <;> simp_all
  · intro t ht
    simp only [thermalCheck, NTC_TEMP_MAX, NTC_TEMP_HYSTERESIS]
    split_ifs with h1 h2 <;> simp_all <;> omega
  · intro c bb sb hc
    simp only [appliedBrightness, if_pos hc, if_pos rfl]
    simp

theorem c10_witness : thermalCheck true 84 = (true, false) :=
  c10_boot_overtemperature.2.1 84 (by decide)

/-- Claim C8, counterexample: the claim says the discrete level is the floor
(the highest level at most the brightness, so 10 should map to 4), but
getBrightnessLevel maps brightness 10 to LEVEL_2 = 16, which is not even at
most 10. -/
theorem c8_counterexample :
    levelValue (getBrightnessLevel 10) = 16 ∧
    ¬ levelValue (getBrightnessLevel 10) ≤ 10 := by
  decide

/-- Claim C8 as amended: for brightness in [4,100], getBrightnessLevel
returns the lowest level of {0,4,16,32,100} that is greater than or equal to
the current value (the ceiling); for example 10 maps to 16. -/
theorem c8_amended_ceiling (b : Nat) (h4 : BRIGHTNESS_MIN ≤ b)
    (h100 : b ≤ BRIGHTNESS_MAX) :
    b ≤ levelValue (getBrightnessLevel b) ∧
    (∀ l : BrightnessLevel, b ≤ levelValue l →
        levelValue (getBrightnessLevel b) ≤ levelValue l) := by
  simp only [BRIGHTNESS_MIN, BRIGHTNESS_MAX] at h4 h100
  constructor
  · unfold getBrightnessLevel
    split_ifs <;> simp_all [levelValue, BRIGHTNESS_MIN, BRIGHTNESS_STEP_1,
      BRIGHTNESS_STEP_2, BRIGHTNESS_MAX] <;> omega
  · intro l hl
    unfold getBrightnessLevel
    cases l <;>
      simp_all [levelValue, BRIGHTNESS_MIN, BRIGHTNESS_STEP_1,
        BRIGHTNESS_STEP_2, BRIGHTNESS_MAX] <;>
      split_ifs <;> simp_all [levelValue] <;> omega

theorem c8_witness : (10 : Nat) ≤ levelValue (getBrightnessLevel 10) :=
  (c8_amended_ceiling 10 (by decide) (by decide)).1

/-- Claim C5: the settings are written only when the dirty timestamp is
non-zero and at least 10000 ms have elapsed since it was stamped; a write
clears the timestamp; and with a cleared timestamp no further write happens,
so an unchanged value is committed at most once per quiet period. -/
theorem c5_commit_quiet_period :
    (∀ m now : Nat, m ≤ now → now - m < 4294967296 →
        (saveCheck m now).1 = true → m ≠ 0 ∧ BACKUP_DELAY ≤ now - m) ∧
    (∀ m now : Nat, (saveCheck m now).1 = true → (saveCheck m now).2 = 0) ∧
    (∀ now : Nat, (saveCheck 0 now).1 = false) := by
  refine ⟨?_, ?_, ?_⟩
  · intro m now h1 h2 hfire
    simp only [saveCheck] at hfire
    split_ifs at hfire with h
    exact ⟨h.1, by rw [← elapsedU32_eq now m h1 h2]; exact h.2⟩
  · intro m now hfire
    simp only [saveCheck] at *
    split_ifs at * <;> simp_all
  · intro now
    simp [saveCheck]

theorem c5_witness :
    (500 : Nat) ≠ 0 ∧ BACKUP_DELAY ≤ 10500 - 500 :=
  c5_commit_quiet_period.1 500 10500 (by decide) (by decide) (by decide)

/-- Claim C1: on a falling edge with the sensor unlocked and
d = now - approach (no timer wraparound): outside [100,600] the
output-enabled flag is unchanged; inside [100,600] on the initiating
approach the flag flips, turning on enters MODE_DEFAULT with a fade target
equal to the duty value of the stored brightness, turning off enters
MODE_STANDBY with a fade target of zero. -/
theorem c1_power_toggle_gesture (st : FirmwareState) (now : Nat)
    (hlock : st.settings.proximitySensorLocked = false)
    (h1 : st.approach ≤ now) (h2 : now - st.approach < 65536) :
    ((now - st.approach < DURATION_MIN ∨ DURATION_POWER_MAX < now - st.approach) →
        (proximityISR st false now).outputEnabled = st.outputEnabled) ∧
    (DURATION_MIN ≤ now - st.approach → now - st.approach ≤ DURATION_POWER_MAX →
      st.initalApproach = true →
        (proximityISR st false now).outputEnabled = !st.outputEnabled ∧
        (st.outputEnabled = false →
            (proximityISR st false now).operationMode = .MODE_DEFAULT ∧
            (proximityISR st false now).fadeOCR =
              Int.ofNat (brightnessToOCR (st.settings.brightness : Int))) ∧
        (st.outputEnabled = true →
            (proximityISR st false now).operationMode = .MODE_STANDBY ∧
            (proximityISR st false now).fadeOCR = 0)) := by
  have hd : elapsedU16 (now % 65536) st.approach = now - st.approach := by
    rw [elapsedU16_mod_left]
    exact elapsedU16_eq now st.approach h1 h2
  constructor
  · intro hcase
    have hno : ¬ (st.initalApproach = true ∧ DURATION_MIN ≤ now - st.approach ∧
        now - st.approach ≤ DURATION_POWER_MAX) := by
      simp only [DURATION_MIN, DURATION_POWER_MAX] at *
      rcases hcase with hlt | hgt <;> intro hcontra <;> omega
    simp only [proximityISR, hlock, hd]
    simp only [Bool.false_eq_true, if_false]
    rw [if_pos trivial, if_neg hno]
  · intro hmin hmax hinit
    have hyes : st.initalApproach = true ∧ DURATION_MIN ≤ now - st.approach ∧
        now - st.approach ≤ DURATION_POWER_MAX := ⟨hinit, hmin, hmax⟩
    simp only [proximityISR, hlock, hd]
    simp only [Bool.false_eq_true, if_false]
    rw [if_pos trivial, if_pos hyes]
    cases hout : st.outputEnabled <;>
      simp [setOperationMode, hout]

theorem c1_witness :
    (proximityISR { sampleState with outputEnabled := false } false 1300).outputEnabled
        = true ∧
    (proximityISR { sampleState with outputEnabled := false } false 1300).operationMode
        = OperationMode.MODE_DEFAULT ∧
    (proximityISR { sampleState with outputEnabled := false } false 1300).fadeOCR = 80 := by
  have h := (c1_power_toggle_gesture { sampleState with outputEnabled := false } 1300
    (by decide) (by decide) (by decide)).2 (by decide) (by decide) (by decide)
  refine ⟨by simpa using h.1, (h.2.1 rfl).1, ?_⟩
  have := (h.2.1 rfl).2
  simpa using this

/-- Claim C9, counterexample: in a reachable state (output enabled, mode
MODE_DEFAULT, non-startup approach, initial-approach flag set, hold of
exactly 800 ms) the first qualifying tick flips the dim direction and
clears the flag, but it also changes settings.brightness on that same tick,
because the brightness-change block still runs while the mode is
MODE_DEFAULT. -/
theorem c9_counterexample :
    (proximityDimTick sampleState 1800).dimUp = true ∧
    (proximityDimTick sampleState 1800).initalApproach = false ∧
    (proximityDimTick sampleState 1800).settings.brightness ≠
      sampleState.settings.brightness := by
  decide

/-- Claim C9 as amended: on the first main-loop tick at which a non-startup
hold reaches 800 ms with the initial-approach flag set, the dim direction is
flipped and the flag is cleared; if the operation mode is MODE_DEFAULT a dim
step in the new direction is applied to settings.brightness on that same
tick, and only when the mode is not MODE_DEFAULT is the brightness left
unchanged. -/
theorem c9_amended_first_hold (st : FirmwareState) (now : Nat)
    (hout : st.outputEnabled = true) (hnear : st.near = true)
    (hstartup : st.proximityAtStartup = false) (hinit : st.initalApproach = true)
    (hdur : DURATION_DIM_MIN ≤ elapsedU16 now st.approach) :
    (proximityDimTick st now).dimUp = !st.dimUp ∧
    (proximityDimTick st now).initalApproach = false ∧
    (st.operationMode = .MODE_DEFAULT →
        (proximityDimTick st now).settings.brightness =
          dimStepBrightness (!st.dimUp) st.settings.dimSteps st.settings.brightness) ∧
    (st.operationMode ≠ .MODE_DEFAULT →
        (proximityDimTick st now).settings.brightness = st.settings.brightness) := by
  simp only [proximityDimTick, dimHoldBranch, hout, hnear, hstartup, hinit]
  simp only [Bool.false_eq_true, if_false, if_true]
  rw [if_pos ⟨trivial, trivial⟩, if_pos hdur]
  by_cases hmode : st.operationMode = OperationMode.MODE_DEFAULT
  · rw [if_pos hmode]
    refine ⟨?_, ?_, ?_, ?_⟩
    · rw [applyDimStep_dimUp]
    · exact applyDimStep_initalApproach _ now
    · intro _
      rw [applyDimStep_brightness]
    · intro hne
      exact absurd hmode hne
  · rw [if_neg hmode]
    exact ⟨rfl, rfl, fun h => absurd h hmode, fun _ => rfl⟩

theorem c9_witness :
    (proximityDimTick { sampleState with operationMode := .MODE_BLINK_END } 1800).dimUp
      = true ∧
    (proximityDimTick { sampleState with operationMode := .MODE_BLINK_END }
        1800).settings.brightness = 32 := by
  have h := c9_amended_first_hold { sampleState with operationMode := .MODE_BLINK_END }
    1800 (by decide) (by decide) (by decide) (by decide) (by decide)
  exact ⟨by simpa using h.1, by simpa using h.2.2.2 (by decide)⟩

theorem dimHoldBranch_brightness (st : FirmwareState) (now d : Nat) :
    (dimHoldBranch st now d).settings.brightness = st.settings.brightness := by
  unfold dimHoldBranch
  split_ifs <;> simp [setOperationMode_settings]

/-- The proximity dimming tick either leaves the stored brightness unchanged
or replaces it by one dim step from the current value. -/
theorem proximityDimTick_brightness (st : FirmwareState) (now : Nat) :
    (proximityDimTick st now).settings.brightness = st.settings.brightness ∨
    ∃ up steps : Bool, (proximityDimTick st now).settings.brightness =
      dimStepBrightness up steps st.settings.brightness := by
  simp only [proximityDimTick]
  split_ifs with h1 h2 h3
  · rw [applyDimStep_brightness, dimHoldBranch_brightness]
    exact Or.inr ⟨_, _, rfl⟩
  · exact Or.inl (dimHoldBranch_brightness st now _)
  · exact Or.inl rfl
  · exact Or.inl rfl

/-- Claim C4: settings.brightness is in [4,100] after boot for every possible
EEPROM content, the proximity dimming tick preserves the bounds, and the
proximity ISR never changes the stored brightness. -/
theorem c4_brightness_invariant :
    (∀ bytes : List Nat, BRIGHTNESS_MIN ≤ (loadSettings bytes).brightness ∧
        (loadSettings bytes).brightness ≤ BRIGHTNESS_MAX) ∧
    (∀ st : FirmwareState, ∀ now : Nat,
        BRIGHTNESS_MIN ≤ st.settings.brightness →
        st.settings.brightness ≤ BRIGHTNESS_MAX →
        BRIGHTNESS_MIN ≤ (proximityDimTick st now).settings.brightness ∧
          (proximityDimTick st now).settings.brightness ≤ BRIGHTNESS_MAX) ∧
    (∀ st : FirmwareState, ∀ pinNear : Bool, ∀ now : Nat,
        (proximityISR st pinNear now).settings.brightness =
          st.settings.brightness) := by
  refine ⟨?_, ?_, ?_⟩
  · intro bytes
    unfold loadSettings
    split
    · split_ifs
      · exact clampBrightness_bounds _
      · decide
    · decide
  · intro st now hb1 hb2
    simp only [BRIGHTNESS_MIN, BRIGHTNESS_MAX] at *
    rcases proximityDimTick_brightness st now with h | ⟨up, steps, h⟩
    · rw [h]
      exact ⟨hb1, hb2⟩
    · rw [h]
      exact dimStepBrightness_bounds st.settings.brightness (by omega) hb1 up steps
  · intro st pinNear now
    simp only [proximityISR]
    split_ifs <;> simp [setOperationMode_settings]

theorem c4_witness :
    BRIGHTNESS_MIN ≤ (proximityDimTick sampleState 1800).settings.brightness ∧
      (proximityDimTick sampleState 1800).settings.brightness ≤ BRIGHTNESS_MAX :=
  c4_brightness_invariant.2.1 sampleState 1800 (by decide) (by decide)

/-! ## CRC-16 bounds and linearity over xor -/

theorem crc16Step_lt (c : Nat) (h : c < 65536) : crc16Step c < 65536 := by
  unfold crc16Step
  have h1 : c >>> 1 < 65536 := by rw [Nat.shiftRight_one]; omega
  split_ifs
  · have h2 : (0xA001 : Nat) < 65536 := by norm_num
    have h16 : (65536 : Nat) = 2 ^ 16 := by norm_num
    rw [h16] at h1 h2 ⊢
    exact Nat.xor_lt_two_pow h1 h2
  · exact h1

theorem crc16Rounds_lt (n : Nat) : ∀ c : Nat, c < 65536 → crc16Rounds n c < 65536 := by
  induction n with
  | zero => intro c h; exact h
  | succ k ih =>
      intro c h
      simp only [crc16Rounds]
      exact ih _ (crc16Step_lt c h)

theorem crc16Update_lt (c b : Nat) (hc : c < 65536) (hb : b < 65536) :
    crc16Update c b < 65536 := by
  unfold crc16Update
  apply crc16Rounds_lt
  have h16 : (65536 : Nat) = 2 ^ 16 := by norm_num
  rw [h16] at hc hb ⊢
  exact Nat.xor_lt_two_pow hc hb

theorem foldl_crc16Update_lt (l : List Nat) (hl : ∀ b ∈ l, b < 65536) :
    ∀ a : Nat, a < 65536 → List.foldl crc16Update a l < 65536 := by
  induction l with
  | nil => intro a ha; simpa using ha
  | cons x xs ih =>
      intro a ha
      simp only [List.foldl_cons]
      exact ih (fun b hb => hl b (List.mem_cons_of_mem x hb)) _
        (crc16Update_lt a x ha (hl x (List.mem_cons_self x xs)))

theorem calculateCRC16_lt (l : List Nat) (hl : ∀ b ∈ l, b < 65536) :
    calculateCRC16 l < 65536 :=
  foldl_crc16Update_lt l hl 0 (by norm_num)

theorem settingsBytes_bounds (s : Settings) : ∀ x ∈ settingsBytes s, x < 65536 := by
  intro x hx
  simp only [settingsBytes, boolByte, List.mem_cons, List.not_mem_nil, or_false] at hx
  rcases hx with rfl | rfl | rfl | rfl | rfl | rfl | rfl | rfl <;>
    first
      | omega
      | (split_ifs <;> omega)

theorem natXor_rearrange (a b x y : Nat) :
    (a ^^^ b) ^^^ (x ^^^ y) = (a ^^^ x) ^^^ (b ^^^ y) := by
  apply Nat.eq_of_testBit_eq
  intro i
  simp only [Nat.testBit_xor]
  cases a.testBit i <;> cases b.testBit i <;> cases x.testBit i <;>
    cases y.testBit i <;> rfl

theorem natXor_right_comm (a b c : Nat) : a ^^^ b ^^^ c = a ^^^ c ^^^ b := by
  have h := natXor_rearrange a b c 0
  simpa [Nat.xor_zero] using h

theorem natXor_ne_self {a e : Nat} (he : e ≠ 0) : a ^^^ e ≠ a := by
  intro h
  apply he
  have h2 := congrArg (fun z => a ^^^ z) h
  simpa [Nat.xor_cancel_left, Nat.xor_self] using h2

theorem xor_mod_two (x y : Nat) : (x ^^^ y) % 2 = (x % 2) ^^^ (y % 2) := by
  rw [← Nat.and_one_is_mod, ← Nat.and_one_is_mod, ← Nat.and_one_is_mod,
    Nat.and_xor_distrib_right]

theorem shiftRight_one_xor (x y : Nat) :
    (x ^^^ y) >>> 1 = (x >>> 1) ^^^ (y >>> 1) := by
  apply Nat.eq_of_testBit_eq
  intro i
  simp [Nat.testBit_shiftRight, Nat.testBit_xor]

theorem crc16Step_xor (x y : Nat) :
    crc16Step (x ^^^ y) = crc16Step x ^^^ crc16Step y := by
  unfold crc16Step
  have hpar := xor_mod_two x y
  rcases Nat.mod_two_eq_zero_or_one x with hx | hx <;>
    rcases Nat.mod_two_eq_zero_or_one y with hy | hy <;>
      rw [hx, hy] at hpar <;>
        simp only [hpar, hx, hy] <;> norm_num <;>
          rw [shiftRight_one_xor]
  all_goals
    first
      | exact Nat.xor_assoc _ _ _
      | exact natXor_right_comm _ _ _
      | (have h := natXor_rearrange (x >>> 1) 40961 (y >>> 1) 40961
         simpa [Nat.xor_self, Nat.xor_zero] using h.symm)

theorem crc16Rounds_xor (n : Nat) : ∀ x y : Nat,
    crc16Rounds n (x ^^^ y) = crc16Rounds n x ^^^ crc16Rounds n y := by
  induction n with
  | zero => intro x y; rfl
  | succ k ih =>
      intro x y
      simp only [crc16Rounds, crc16Step_xor]
      exact ih _ _

theorem crc16Update_xor (a b x y : Nat) :
    crc16Update (a ^^^ b) (x ^^^ y) = crc16Update a x ^^^ crc16Update b y := by
  unfold crc16Update
  rw [natXor_rearrange, crc16Rounds_xor]

theorem foldl_crc16Update_xor :
    ∀ (m e : List Nat), m.length = e.length → ∀ a b : Nat,
      List.foldl crc16Update (a ^^^ b) (List.zipWith (fun x y => x ^^^ y) m e) =
        List.foldl crc16Update a m ^^^ List.foldl crc16Update b e := by
  intro m
  induction m with
  | nil =>
      intro e h a b
      rw [List.length_nil] at h
      rw [List.eq_nil_of_length_eq_zero h.symm]
      rfl
  | cons x xs ih =>
      intro e h a b
      cases e with
      | nil => simp at h
      | cons y ys =>
          simp only [List.zipWith_cons_cons, List.foldl_cons]
          rw [crc16Update_xor]
          exact ih ys (by simpa using h) _ _

theorem calculateCRC16_zipWith_xor (m e : List Nat) (h : m.length = e.length) :
    calculateCRC16 (List.zipWith (fun x y => x ^^^ y) m e) =
      calculateCRC16 m ^^^ calculateCRC16 e := by
  unfold calculateCRC16
  have h0 : (0 : Nat) = 0 ^^^ 0 := rfl
  conv_lhs => rw [h0]
  exact foldl_crc16Update_xor m e h 0 0

set_option maxRecDepth 100000

/-- The CRC-16 syndrome of every single-bit error pattern is non-zero, so a
single flipped bit always changes the checksum of an 8-byte record. -/
theorem singleBitError_crc_ne_zero :
    ∀ p : Nat, p < 8 → ∀ j : Nat, j < 8 →
      calculateCRC16 (singleBitError p j) ≠ 0 := by
  decide

/-- Claim C2: storing a valid settings record (magic correct, brightness in
[4,100], crc field in its in-RAM zero state) and loading the stored bytes
back succeeds, restoring every field unchanged. -/
theorem c2_store_load_roundtrip (s : Settings) (hm : s.magic = EEPROM_MAGIC)
    (hb1 : BRIGHTNESS_MIN ≤ s.brightness) (hb2 : s.brightness ≤ BRIGHTNESS_MAX)
    (hc : s.crc = 0) :
    loadAccepts (storeSettings s) = true ∧ loadSettings (storeSettings s) = s := by
  obtain ⟨m, b, d, l, cr⟩ := s
  dsimp only at hm hb1 hb2 hc
  subst hm
  subst hc
  simp only [BRIGHTNESS_MIN, BRIGHTNESS_MAX] at hb1 hb2
  have hble : b < 65536 := by omega
  have hzero : settingsBytes ⟨EEPROM_MAGIC, b, d, l, (0 : Nat)⟩ =
      [EEPROM_MAGIC % 256, EEPROM_MAGIC / 256 % 256, b % 256, b / 256 % 256,
       boolByte d, boolByte l, 0, 0] := by
    simp [settingsBytes]
  have hclt : calculateCRC16 (settingsBytes ⟨EEPROM_MAGIC, b, d, l, (0 : Nat)⟩) < 65536 :=
    calculateCRC16_lt _ (settingsBytes_bounds _)
  rw [hzero] at hclt
  have hstore : storeSettings ⟨EEPROM_MAGIC, b, d, l, (0 : Nat)⟩ =
      [EEPROM_MAGIC % 256, EEPROM_MAGIC / 256 % 256, b % 256, b / 256 % 256,
       boolByte d, boolByte l,
       calculateCRC16 [EEPROM_MAGIC % 256, EEPROM_MAGIC / 256 % 256, b % 256,
         b / 256 % 256, boolByte d, boolByte l, 0, 0] % 256,
       calculateCRC16 [EEPROM_MAGIC % 256, EEPROM_MAGIC / 256 % 256, b % 256,
         b / 256 % 256, boolByte d, boolByte l, 0, 0] / 256 % 256] := by
    simp [storeSettings, settingsBytes]
  rw [hstore]
  generalize hcg : calculateCRC16 [EEPROM_MAGIC % 256, EEPROM_MAGIC / 256 % 256,
    b % 256, b / 256 % 256, boolByte d, boolByte l, 0, 0] = c at hclt ⊢
  have hmagic : decodeU16 (EEPROM_MAGIC % 256) (EEPROM_MAGIC / 256 % 256) = EEPROM_MAGIC := by
    decide
  have hcrcdec : decodeU16 (c % 256) (c / 256 % 256) = c := by
    unfold decodeU16
    omega
  have hbdec : decodeU16 (b % 256) (b / 256 % 256) = b := by
    unfold decodeU16
    omega
  have haccept : loadAccepts [EEPROM_MAGIC % 256, EEPROM_MAGIC / 256 % 256, b % 256,
      b / 256 % 256, boolByte d, boolByte l, c % 256, c / 256 % 256] = true := by
    simp only [loadAccepts]
    rw [hcg, hmagic, hcrcdec]
    simp
  refine ⟨haccept, ?_⟩
  simp only [loadSettings, haccept, if_true]
  rw [hmagic, hbdec]
  have hclamp : clampBrightness b = b := by
    simp only [clampBrightness, BRIGHTNESS_MIN, BRIGHTNESS_MAX]
    split_ifs <;> omega
  rw [hclamp]
  cases d <;> cases l <;> simp [boolByte]

theorem c2_witness :
    loadAccepts (storeSettings defaultSettings) = true ∧
      loadSettings (storeSettings defaultSettings) = defaultSettings :=
  c2_store_load_roundtrip defaultSettings (by decide) (by decide) (by decide) (by decide)

/-- Claim C3: a persisted record whose magic differs from EEPROM_MAGIC or
whose recomputed CRC-16 differs from the stored checksum is rejected and the
settings keep the defaults brightness 32, dimSteps true, lock false; every
single-bit corruption of any stored record is rejected this way; and boot
leaves the dirty timestamp cleared, so nothing is written back until the next
dirty commit. -/
theorem c3_corrupt_falls_back :
    (∀ b0 b1 b2 b3 b4 b5 b6 b7 : Nat,
        (decodeU16 b0 b1 ≠ EEPROM_MAGIC ∨
         decodeU16 b6 b7 ≠ calculateCRC16 [b0, b1, b2, b3, b4, b5, 0, 0]) →
        loadSettings [b0, b1, b2, b3, b4, b5, b6, b7] = defaultSettings) ∧
    (∀ s : Settings, ∀ i : Nat, i < 64 →
        loadSettings (flipBit (storeSettings s) i) = defaultSettings) ∧
    defaultSettings.brightness = 32 ∧
    defaultSettings.dimSteps = true ∧
    defaultSettings.proximitySensorLocked = false ∧
    bootSettingsModified = 0 ∧
    (∀ now : Nat, (saveCheck bootSettingsModified now).1 = false) := by
  refine ⟨?_, ?_, rfl, rfl, rfl, rfl, ?_⟩
  · intro b0 b1 b2 b3 b4 b5 b6 b7 hbad
    have hfalse : loadAccepts [b0, b1, b2, b3, b4, b5, b6, b7] = false := by
      simp only [loadAccepts]
      rcases hbad with h | h
      · rw [beq_eq_false_iff_ne.mpr h, Bool.false_and]
      · rw [beq_eq_false_iff_ne.mpr h, Bool.and_false]
    simp [loadSettings, hfalse]
  · intro s i hi
    obtain ⟨p, j, hp, hj, rfl⟩ : ∃ p j, p < 8 ∧ j < 8 ∧ i = 8 * p + j :=
      ⟨i / 8, i % 8, by omega, by omega, by omega⟩
    obtain ⟨m, b, d, l, cr⟩ := s
    have hzero : settingsBytes ⟨m, b, d, l, (0 : Nat)⟩ =
        [m % 256, m / 256 % 256, b % 256, b / 256 % 256,
         boolByte d, boolByte l, 0, 0] := by
      simp [settingsBytes]
    have hclt : calculateCRC16 (settingsBytes ⟨m, b, d, l, (0 : Nat)⟩) < 65536 :=
      calculateCRC16_lt _ (settingsBytes_bounds _)
    rw [hzero] at hclt
    have hstore : storeSettings ⟨m, b, d, l, cr⟩ =
        [m % 256, m / 256 % 256, b % 256, b / 256 % 256, boolByte d, boolByte l,
         calculateCRC16 [m % 256, m / 256 % 256, b % 256, b / 256 % 256,
           boolByte d, boolByte l, 0, 0] % 256,
         calculateCRC16 [m % 256, m / 256 % 256, b % 256, b / 256 % 256,
           boolByte d, boolByte l, 0, 0] / 256 % 256] := by
      simp [storeSettings, settingsBytes]
    rw [hstore]
    generalize hcg : calculateCRC16 [m % 256, m / 256 % 256, b % 256, b / 256 % 256,
      boolByte d, boolByte l, 0, 0] = c at hclt ⊢
    have hene : (1 <<< j) ≠ 0 := by
      interval_cases j <;> decide
    have helt : (1 <<< j) < 256 := by
      interval_cases j <;> decide
    have hdec : decodeU16 (c % 256) (c / 256 % 256) = c := by
      unfold decodeU16
      omega
    have hdiv : (8 * p + j) / 8 = p := by omega
    have hmod8 : (8 * p + j) % 8 = j := by omega
    unfold flipBit
    rw [hdiv, hmod8]
    interval_cases p
    · show loadSettings [m % 256 ^^^ 1 <<< j, m / 256 % 256, b % 256, b / 256 % 256,
          boolByte d, boolByte l, c % 256, c / 256 % 256] = defaultSettings
      have hzip : ([m % 256 ^^^ 1 <<< j, m / 256 % 256, b % 256, b / 256 % 256,
          boolByte d, boolByte l, 0, 0] : List Nat) =
          List.zipWith (fun x y => x ^^^ y)
            [m % 256, m / 256 % 256, b % 256, b / 256 % 256, boolByte d, boolByte l, 0, 0]
            (singleBitError 0 j) := by
        simp [singleBitError]
      have hsynd : calculateCRC16 (singleBitError 0 j) ≠ 0 :=
        singleBitError_crc_ne_zero 0 (by omega) j hj
      have hne : decodeU16 (c % 256) (c / 256 % 256) ≠
          calculateCRC16 [m % 256 ^^^ 1 <<< j, m / 256 % 256, b % 256, b / 256 % 256,
            boolByte d, boolByte l, 0, 0] := by
        rw [hzip, calculateCRC16_zipWith_xor
          [m % 256, m / 256 % 256, b % 256, b / 256 % 256, boolByte d, boolByte l, 0, 0]
          (singleBitError 0 j) rfl, hcg, hdec]
        exact Ne.symm (natXor_ne_self hsynd)
      have hb2 := beq_eq_false_iff_ne.mpr hne
      simp only [loadSettings, loadAccepts]
      simp [hb2]
    · show loadSettings [m % 256, m / 256 % 256 ^^^ 1 <<< j, b % 256, b / 256 % 256,
          boolByte d, boolByte l, c % 256, c / 256 % 256] = defaultSettings
      have hzip : ([m % 256, m / 256 % 256 ^^^ 1 <<< j, b % 256, b / 256 % 256,
          boolByte d, boolByte l, 0, 0] : List Nat) =
          List.zipWith (fun x y => x ^^^ y)
            [m % 256, m / 256 % 256, b % 256, b / 256 % 256, boolByte d, boolByte l, 0, 0]
            (singleBitError 1 j) := by
        simp [singleBitError]
      have hsynd : calculateCRC16 (singleBitError 1 j) ≠ 0 :=
        singleBitError_crc_ne_zero 1 (by omega) j hj
      have hne : decodeU16 (c % 256) (c / 256 % 256) ≠
          calculateCRC16 [m % 256, m / 256 % 256 ^^^ 1 <<< j, b % 256, b / 256 % 256,
            boolByte d, boolByte l, 0, 0] := by
        rw [hzip, calculateCRC16_zipWith_xor
          [m % 256, m / 256 % 256, b % 256, b / 256 % 256, boolByte d, boolByte l, 0, 0]
          (singleBitError 1 j) rfl, hcg, hdec]
        exact Ne.symm (natXor_ne_self hsynd)
      have hb2 := beq_eq_false_iff_ne.mpr hne
      simp only [loadSettings, loadAccepts]
      simp [hb2]
    · show loadSettings [m % 256, m / 256 % 256, b % 256 ^^^ 1 <<< j, b / 256 % 256,
          boolByte d, boolByte l, c % 256, c / 256 % 256] = defaultSettings
      have hzip : ([m % 256, m / 256 % 256, b % 256 ^^^ 1 <<< j, b / 256 % 256,
          boolByte d, boolByte l, 0, 0] : List Nat) =
          List.zipWith (fun x y => x ^^^ y)
            [m % 256, m / 256 % 256, b % 256, b / 256 % 256, boolByte d, boolByte l, 0, 0]
            (singleBitError 2 j) := by
        simp [singleBitError]
      have hsynd : calculateCRC16 (singleBitError 2 j) ≠ 0 :=
        singleBitError_crc_ne_zero 2 (by omega) j hj
      have hne : decodeU16 (c % 256) (c / 256 % 256) ≠
          calculateCRC16 [m % 256, m / 256 % 256, b % 256 ^^^ 1 <<< j, b / 256 % 256,
            boolByte d, boolByte l, 0, 0] := by
        rw [hzip, calculateCRC16_zipWith_xor
          [m % 256, m / 256 % 256, b % 256, b / 256 % 256, boolByte d, boolByte l, 0, 0]
          (singleBitError 2 j) rfl, hcg, hdec]
        exact Ne.symm (natXor_ne_self hsynd)
      have hb2 := beq_eq_false_iff_ne.mpr hne
      simp only [loadSettings, loadAccepts]
      simp [hb2]
    · show loadSettings [m % 256, m / 256 % 256, b % 256, b / 256 % 256 ^^^ 1 <<< j,
          boolByte d, boolByte l, c % 256, c / 256 % 256] = defaultSettings
      have hzip : ([m % 256, m / 256 % 256, b % 256, b / 256 % 256 ^^^ 1 <<< j,
          boolByte d, boolByte l, 0, 0] : List Nat) =
          List.zipWith (fun x y => x ^^^ y)
            [m % 256, m / 256 % 256, b % 256, b / 256 % 256, boolByte d, boolByte l, 0, 0]
            (singleBitError 3 j) := by
        simp [singleBitError]
      have hsynd : calculateCRC16 (singleBitError 3 j) ≠ 0 :=
        singleBitError_crc_ne_zero 3 (by omega) j hj
      have hne : decodeU16 (c % 256) (c / 256 % 256) ≠
          calculateCRC16 [m % 256, m / 256 % 256, b % 256, b / 256 % 256 ^^^ 1 <<< j,
            boolByte d, boolByte l, 0, 0] := by
        rw [hzip, calculateCRC16_zipWith_xor
          [m % 256, m / 256 % 256, b % 256, b / 256 % 256, boolByte d, boolByte l, 0, 0]
          (singleBitError 3 j) rfl, hcg, hdec]
        exact Ne.symm (natXor_ne_self hsynd)
      have hb2 := beq_eq_false_iff_ne.mpr hne
      simp only [loadSettings, loadAccepts]
      simp [hb2]
    · show loadSettings [m % 256, m / 256 % 256, b % 256, b / 256 % 256,
          boolByte d ^^^ 1 <<< j, boolByte l, c % 256, c / 256 % 256] = defaultSettings
      have hzip : ([m % 256, m / 256 % 256, b % 256, b / 256 % 256,
          boolByte d ^^^ 1 <<< j, boolByte l, 0, 0] : List Nat) =
          List.zipWith (fun x y => x ^^^ y)
            [m % 256, m / 256 % 256, b % 256, b / 256 % 256, boolByte d, boolByte l, 0, 0]
            (singleBitError 4 j) := by
        simp [singleBitError]
      have hsynd : calculateCRC16 (singleBitError 4 j) ≠ 0 :=
        singleBitError_crc_ne_zero 4 (by omega) j hj
      have hne : decodeU16 (c % 256) (c / 256 % 256) ≠
          calculateCRC16 [m % 256, m / 256 % 256, b % 256, b / 256 % 256,
            boolByte d ^^^ 1 <<< j, boolByte l, 0, 0] := by
        rw [hzip, calculateCRC16_zipWith_xor
          [m % 256, m / 256 % 256, b % 256, b / 256 % 256, boolByte d, boolByte l, 0, 0]
          (singleBitError 4 j) rfl, hcg, hdec]
        exact Ne.symm (natXor_ne_self hsynd)
      have hb2 := beq_eq_false_iff_ne.mpr hne
      simp only [loadSettings, loadAccepts]
      simp [hb2]
    · show loadSettings [m % 256, m / 256 % 256, b % 256, b / 256 % 256,
          boolByte d, boolByte l ^^^ 1 <<< j, c % 256, c / 256 % 256] = defaultSettings
      have hzip : ([m % 256, m / 256 % 256, b % 256, b / 256 % 256,
          boolByte d, boolByte l ^^^ 1 <<< j, 0, 0] : List Nat) =
          List.zipWith (fun x y => x ^^^ y)
            [m % 256, m / 256 % 256, b % 256, b / 256 % 256, boolByte d, boolByte l, 0, 0]
            (singleBitError 5 j) := by
        simp [singleBitError]
      have hsynd : calculateCRC16 (singleBitError 5 j) ≠ 0 :=
        singleBitError_crc_ne_zero 5 (by omega) j hj
      have hne : decodeU16 (c % 256) (c / 256 % 256) ≠
          calculateCRC16 [m % 256, m / 256 % 256, b % 256, b / 256 % 256,
            boolByte d, boolByte l ^^^ 1 <<< j, 0, 0] := by
        rw [hzip, calculateCRC16_zipWith_xor
          [m % 256, m / 256 % 256, b % 256, b / 256 % 256, boolByte d, boolByte l, 0, 0]
          (singleBitError 5 j) rfl, hcg, hdec]
        exact Ne.symm (natXor_ne_self hsynd)
      have hb2 := beq_eq_false_iff_ne.mpr hne
      simp only [loadSettings, loadAccepts]
      simp [hb2]
    · show loadSettings [m % 256, m / 256 % 256, b % 256, b / 256 % 256,
          boolByte d, boolByte l, c % 256 ^^^ 1 <<< j, c / 256 % 256] = defaultSettings
      have hx : c % 256 ^^^ 1 <<< j ≠ c % 256 := natXor_ne_self hene
      have hxlt : c % 256 ^^^ 1 <<< j < 256 := by
        have h8 : (256 : Nat) = 2 ^ 8 := by norm_num
        rw [h8]
        rw [h8] at helt
        exact Nat.xor_lt_two_pow (by omega) helt
      have hne : decodeU16 (c % 256 ^^^ 1 <<< j) (c / 256 % 256) ≠
          calculateCRC16 [m % 256, m / 256 % 256, b % 256, b / 256 % 256,
            boolByte d, boolByte l, 0, 0] := by
        rw [hcg]
        unfold decodeU16
        intro h
        apply hx
        omega
      have hb2 := beq_eq_false_iff_ne.mpr hne
      simp only [loadSettings, loadAccepts]
      simp [hb2]
    · show loadSettings [m % 256, m / 256 % 256, b % 256, b / 256 % 256,
          boolByte d, boolByte l, c % 256, c / 256 % 256 ^^^ 1 <<< j] = defaultSettings
      have hy : c / 256 % 256 ^^^ 1 <<< j ≠ c / 256 % 256 := natXor_ne_self hene
      have hne : decodeU16 (c % 256) (c / 256 % 256 ^^^ 1 <<< j) ≠
          calculateCRC16 [m % 256, m / 256 % 256, b % 256, b / 256 % 256,
            boolByte d, boolByte l, 0, 0] := by
        rw [hcg]
        unfold decodeU16
        intro h
        apply hy
        omega
      have hb2 := beq_eq_false_iff_ne.mpr hne
      simp only [loadSettings, loadAccepts]
      simp [hb2]
  · intro now
    simp [saveCheck, bootSettingsModified]

theorem c3_witness : loadSettings [0, 0, 0, 0, 0, 0, 0, 0] = defaultSettings :=
  c3_corrupt_falls_back.1 0 0 0 0 0 0 0 0 (Or.inl (by decide))

end OligoGrace
